import Mathlib

/-! Verification development for the SEC filings scraper repository
    (src/project.py, src/app.py, src/project_reader.py).

    The Python code is shallowly embedded: each Python string operation is
    modeled by an executable Lean function on `String`/`List Char`, Python
    dicts by association lists, the network by explicit oracles
    (`String → Option _`), and exceptions by `Option`/`Except`.  Python
    floats appearing in document-size comparisons are modeled exactly by
    sign/mantissa/scale decimal numbers (`PyFloat`); the size strings the
    code manipulates are short decimals, where IEEE doubles and exact
    decimals order identically. -/

/-! ### String primitives (models of the Python `str` methods used) -/

/-- Model of Python `str.startswith` on character lists. -/
def listStarts : List Char → List Char → Bool
  | [], _ => true
  | _ :: _, [] => false
  | a :: as, b :: bs => a == b && listStarts as bs

/-- Model of Python `s.startswith(pat)`. -/
def strStarts (s pat : String) : Bool := listStarts pat.data s.data

/-- Model of Python `s.endswith(pat)`. -/
def strEnds (s pat : String) : Bool := listStarts pat.data.reverse s.data.reverse

/-- Helper for substring search: does `pat` occur in the list? -/
def containsAux (pat : List Char) : List Char → Bool
  | [] => listStarts pat []
  | c :: rest => listStarts pat (c :: rest) || containsAux pat rest

/-- Model of Python `pat in s` (substring containment). -/
def strContains (s pat : String) : Bool := containsAux pat.data s.data

/-- Helper for `str.split(sep)` with a one-character separator. -/
def splitCharAux (sep : Char) : List Char → List Char → List (List Char)
  | [], acc => [acc.reverse]
  | c :: cs, acc =>
    if c == sep then acc.reverse :: splitCharAux sep cs []
    else splitCharAux sep cs (c :: acc)

/-- Model of Python `s.split(sep)` for a one-character separator. -/
def splitStr (sep : Char) (s : String) : List String :=
  (splitCharAux sep s.data []).map String.mk

/-- Model of Python `s.strip()` (ASCII whitespace). -/
def pyStrip (s : String) : String :=
  String.mk (((s.data.dropWhile Char.isWhitespace).reverse.dropWhile Char.isWhitespace).reverse)

/-- Model of Python `s.upper()` (ASCII range, which covers the data the code sees). -/
def pyUpper (s : String) : String := String.mk (s.data.map Char.toUpper)

/-- Model of Python `s.lower()` (ASCII range). -/
def pyLower (s : String) : String := String.mk (s.data.map Char.toLower)

/-- Model of Python `s.isdigit()` (ASCII digits). -/
def pyIsDigit (s : String) : Bool := !s.data.isEmpty && s.data.all Char.isDigit

/-- Fuel-indexed helper for `str.replace`; the fuel is the length of the
    scanned list, so the recursion is structural. -/
def replaceAux (pat rep : List Char) : Nat → List Char → List Char
  | _, [] => []
  | 0, l => l
  | n + 1, c :: cs =>
    if listStarts pat (c :: cs) then rep ++ replaceAux pat rep n ((c :: cs).drop pat.length)
    else c :: replaceAux pat rep n cs

/-- Model of Python `s.replace(pat, rep)` (all occurrences, left to right;
    the code only ever replaces non-empty patterns). -/
def strReplace (s pat rep : String) : String :=
  String.mk (replaceAux pat.data rep.data s.data.length s.data)

/-- Model of Python `s.zfill(width)` for the digit strings (CIKs) the code pads. -/
def zfill (width : Nat) (s : String) : String :=
  if s.length < width then String.mk (List.replicate (width - s.length) '0') ++ s else s

/-- Association-list lookup, modeling a Python dict lookup / `in` test. -/
def lookupStr {α : Type} (k : String) : List (String × α) → Option α
  | [] => none
  | p :: rest => if p.1 = k then some p.2 else lookupStr k rest

/-! ### Exact model of the Python floats used for document sizes -/

/-- Value of a digit list read in base 10. -/
def digitsToNat (l : List Char) : Nat := l.foldl (fun n c => 10 * n + (c.toNat - 48)) 0

/-- Exact decimal number: `value = (-1)^neg * mant / 10^scale`.  Models the
    Python floats produced by `float(...)` on the short decimal size strings
    of a filing index page (exactly representable orderings). -/
structure PyFloat where
  neg : Bool
  mant : Nat
  scale : Nat
deriving DecidableEq

/-- The float `0.0` (initial value of `best_match_size`). -/
def pfZero : PyFloat := ⟨false, 0, 0⟩

/-- The signed integer numerator of a `PyFloat`. -/
def pfNum (a : PyFloat) : Int := if a.neg then -(a.mant : Int) else (a.mant : Int)

/-- The rational value of a `PyFloat` (used only in proofs). -/
def pfVal (a : PyFloat) : ℚ := (pfNum a : ℚ) / (10 : ℚ) ^ a.scale

/-- Model of Python `a < b` on floats: compare at a common denominator. -/
def pfLt (a b : PyFloat) : Bool :=
  decide (pfNum a * (10 : Int) ^ b.scale < pfNum b * (10 : Int) ^ a.scale)

/-- Model of multiplying a Python float by a natural constant (1024, 1024*1024). -/
def pfMul (a : PyFloat) (k : Nat) : PyFloat := ⟨a.neg, a.mant * k, a.scale⟩

/-- Digits (with optional single dot) to a decimal; models the grammar of the
    plain decimal literals `float(...)` receives from the code. -/
def parseDecDigits (l : List Char) : Option (Nat × Nat) :=
  match splitCharAux '.' l [] with
  | [ip] => if ip ≠ [] ∧ ip.all Char.isDigit then some (digitsToNat ip, 0) else none
  | [ip, fp] =>
    if (ip ≠ [] ∨ fp ≠ []) ∧ ip.all Char.isDigit ∧ fp.all Char.isDigit then
      some (digitsToNat ip * 10 ^ fp.length + digitsToNat fp, fp.length)
    else none
  | _ => none

/-- Model of Python `float(s)` on the decimal strings the code feeds it;
    `none` models a raised `ValueError`. -/
def parseFloat? (s : String) : Option PyFloat :=
  match (pyStrip s).data with
  | '-' :: rest => (parseDecDigits rest).map (fun p => ⟨true, p.1, p.2⟩)
  | '+' :: rest => (parseDecDigits rest).map (fun p => ⟨false, p.1, p.2⟩)
  | l => (parseDecDigits l).map (fun p => ⟨false, p.1, p.2⟩)

/-! ### State name mapping (src/app.py lines 56-67, `STATE_ABBREV`) -/

/-- The fixed code-to-full-name table `STATE_ABBREV` of src/app.py. -/
def STATE_ABBREV : List (String × String) :=
  [("AL", "Alabama"), ("AK", "Alaska"), ("AZ", "Arizona"), ("AR", "Arkansas"), ("CA", "California"),
   ("CO", "Colorado"), ("CT", "Connecticut"), ("DE", "Delaware"), ("FL", "Florida"), ("GA", "Georgia"),
   ("HI", "Hawaii"), ("ID", "Idaho"), ("IL", "Illinois"), ("IN", "Indiana"), ("IA", "Iowa"),
   ("KS", "Kansas"), ("KY", "Kentucky"), ("LA", "Louisiana"), ("ME", "Maine"), ("MD", "Maryland"),
   ("MA", "Massachusetts"), ("MI", "Michigan"), ("MN", "Minnesota"), ("MS", "Mississippi"), ("MO", "Missouri"),
   ("MT", "Montana"), ("NE", "Nebraska"), ("NV", "Nevada"), ("NH", "New Hampshire"), ("NJ", "New Jersey"),
   ("NM", "New Mexico"), ("NY", "New York"), ("NC", "North Carolina"), ("ND", "North Dakota"), ("OH", "Ohio"),
   ("OK", "Oklahoma"), ("OR", "Oregon"), ("PA", "Pennsylvania"), ("RI", "Rhode Island"), ("SC", "South Carolina"),
   ("SD", "South Dakota"), ("TN", "Tennessee"), ("TX", "Texas"), ("UT", "Utah"), ("VT", "Vermont"),
   ("VA", "Virginia"), ("WA", "Washington"), ("WV", "West Virginia"), ("WI", "Wisconsin"), ("WY", "Wyoming")]

/-! ### Daily index parsing (src/project.py lines 100-129) -/

/-- One parsed line of the daily bulk index (the 5 pipe-delimited fields,
    exactly as split). -/
structure RawIndexRecord where
  cik : String
  name : String
  form : String
  dateFiled : String
  filename : String
deriving DecidableEq

/-- Model of src/project.py lines 108-113: strip the line, split on `|`,
    keep it only when there are exactly 5 fields. -/
def parseLine (l : String) : Option RawIndexRecord :=
  match splitStr '|' (pyStrip l) with
  | [a, b, c, d, e] => some ⟨a, b, c, d, e⟩
  | _ => none

/-- All records of a list of lines (lines that do not split into 5 fields
    are skipped silently). -/
def recordsOf (ls : List String) : List RawIndexRecord := ls.filterMap parseLine

/-- Model of `line.startswith('-------')` (src/project.py line 103). -/
def isSep (l : String) : Bool := strStarts l "-------"

/-- The lines after the first dashed separator; when no separator exists the
    scan index stays 0 and every line is processed
    (src/project.py lines 101-107). -/
def afterSep : List String → Option (List String)
  | [] => none
  | l :: ls => if isSep l = true then some ls else afterSep ls

/-- The data block of the index (src/project.py lines 101-107). -/
def dataLines (lines : List String) : List String := (afterSep lines).getD lines

/-- Records of a split index document. -/
def parseIndexLines (lines : List String) : List RawIndexRecord := recordsOf (dataLines lines)

/-- Model of `content.splitlines()` for newline-separated content (a trailing
    newline yields a final empty line, which the 5-field check discards, so
    the parse result agrees with Python). -/
def splitLines (content : String) : List String := splitStr '\n' content

/-- Parse one day's raw index text (src/project.py lines 100-113). -/
def parseIndex (content : String) : List RawIndexRecord := parseIndexLines (splitLines content)

/-- Accession identifier derived from the raw document path:
    `filename.split("/")[-1].replace(".txt", "")` (src/project.py line 65). -/
def deriveAccession (filename : String) : String :=
  strReplace ((splitStr '/' filename).getLastD "") ".txt" ""

/-- Model of `build_filing_url` of src/project.py lines 64-67. -/
def buildFilingUrlDaily (cik filename : String) : String :=
  "https://www.sec.gov/Archives/edgar/data/" ++ cik ++ "/" ++
    strReplace (deriveAccession filename) "-" "" ++ "/" ++ deriveAccession filename ++ "-index.html"

/-- One row appended to `all_filings` by src/project.py lines 118-125. -/
structure DailyFiling where
  cik : String
  companyName : String
  ticker : String
  formType : String
  dateFiled : String
  filingUrl : String
deriving DecidableEq

/-- The form-type test of src/project.py line 114:
    `form.strip().upper().startswith(filing_type)`.  Note the selection entry
    `filingType` is used as given, without case normalization. -/
def formMatchesOne (filingType form : String) : Bool :=
  strStarts (pyUpper (pyStrip form)) filingType

/-- The matcher lifted to a selection set (any selected entry may match;
    src/project.py offers one entry, src/app.py a list). -/
def formMatches (form : String) (sel : List String) : Bool :=
  sel.any (fun t => formMatchesOne t form)

/-- Model of the per-line processing of src/project.py lines 107-125:
    parse, filter by form type, build the output row.  The CIK-to-ticker
    dict is passed as a function. -/
def processLine (cikToTicker : String → String) (filingType : String) (l : String) :
    Option DailyFiling :=
  match parseLine l with
  | none => none
  | some r =>
    if strStarts (pyUpper (pyStrip r.form)) filingType = true then
      some ⟨pyStrip r.cik, r.name, cikToTicker (zfill 10 (pyStrip r.cik)), pyStrip r.form,
            pyStrip r.dateFiled, buildFilingUrlDaily (pyStrip r.cik) (pyStrip r.filename)⟩
    else none

/-- Model of one day's pass of the main loop of src/project.py
    lines 100-125: every matching raw line appends one row. -/
def processDay (cikToTicker : String → String) (filingType : String) (content : String) :
    List DailyFiling :=
  (dataLines (splitLines content)).filterMap (processLine cikToTicker filingType)

/-! ### Metadata resolver (src/app.py lines 247-278, `get_company_details`) -/

/-- The cached descriptive attributes of a filer. -/
structure CompanyDetails where
  entityName : String
  location : String
  incorporated : String
deriving DecidableEq

/-- The relevant fields of the registry's submissions JSON for one filer
    (`addresses.business.city`, `addresses.business.stateOrCountry`, `name`,
    and the incorporation fields, `none` modeling an absent key). -/
structure RawCompany where
  name : String
  city : String
  stateOrCountry : String
  stateOfIncorporation : Option String
  incorporationState : Option String
deriving DecidableEq

/-- `data.get("stateOfIncorporation", data.get("incorporationState", ""))`
    (src/app.py lines 264-265). -/
def incCode (r : RawCompany) : String :=
  r.stateOfIncorporation.getD (r.incorporationState.getD "")

/-- The details built from a fetched submissions document
    (src/app.py lines 260-272): the business-location state is mapped with
    default `''`, the incorporation code is uppercased and mapped with the
    code itself as default. -/
def mkDetails (r : RawCompany) : CompanyDetails :=
  ⟨r.name,
   r.city ++ ", " ++ (lookupStr r.stateOrCountry STATE_ABBREV).getD "",
   (lookupStr (pyUpper (incCode r)) STATE_ABBREV).getD (incCode r)⟩

/-- The all-empty details returned when display is off or the fetch fails. -/
def emptyDetails : CompanyDetails := ⟨"", "", ""⟩

/-- Model of `SECAPIClient.get_company_details` (src/app.py lines 247-278).
    `fetch` is the network oracle (`none` = the request or JSON handling
    raised).  Returns the details, the updated cache, and the list of CIKs
    for which a network fetch was issued (empty or singleton). -/
def getCompanyDetails (showDetails : Bool) (fetch : String → Option RawCompany)
    (cache : List (String × CompanyDetails)) (cik : String) :
    CompanyDetails × List (String × CompanyDetails) × List String :=
  match lookupStr cik cache with
  | some d => (d, cache, [])
  | none =>
    if showDetails = false then (emptyDetails, cache, [])
    else
      match fetch cik with
      | some raw => (mkDetails raw, (cik, mkDetails raw) :: cache, [cik])
      | none => (emptyDetails, cache, [cik])

/-- A sequence of `get_company_details` calls on one client, collecting the
    returned details and the log of issued fetches. -/
def runCalls (sd : Bool) (fetch : String → Option RawCompany) :
    List (String × CompanyDetails) → List String →
    List CompanyDetails × List (String × CompanyDetails) × List String
  | cache, [] => ([], cache, [])
  | cache, c :: cs =>
    let s := getCompanyDetails sd fetch cache c
    let rest := runCalls sd fetch s.2.1 cs
    (s.1 :: rest.1, rest.2.1, s.2.2 ++ rest.2.2)

/-- Occurrences of a string in a list. -/
def countOcc (a : String) : List String → Nat
  | [] => 0
  | b :: bs => (if b = a then 1 else 0) + countOcc a bs

/-! ### Primary document resolution (src/app.py lines 339-401,
    `get_matching_document`) -/

/-- One `<tr>` of the scanned document table: the stripped text of each
    `<td>` is irrelevant except at indices 3 (type) and 4 (size); `href` is
    the href of the link in cell 2, `""` when the cell has no link. -/
structure DocRow where
  cells : List String
  href : String
deriving DecidableEq

/-- `doc_url.lower().endswith(('.htm', '.html'))` (src/app.py line 365). -/
def htmOk (u : String) : Bool :=
  strEnds (pyLower u) ".htm" || strEnds (pyLower u) ".html"

/-- The size computation of src/app.py lines 368-375 on the already-stripped
    size text; `none` models an uncaught `ValueError` from `float(...)`. -/
def docSize (sizeText : String) : Option PyFloat :=
  if sizeText = "" then some pfZero
  else if strContains sizeText "KB" = true then
    (parseFloat? (strReplace sizeText "KB" "")).map (fun p => pfMul p 1024)
  else if strContains sizeText "MB" = true then
    (parseFloat? (strReplace sizeText "MB" "")).map (fun p => pfMul p 1048576)
  else if pyIsDigit (strReplace sizeText "." "") = true then parseFloat? sizeText
  else some pfZero

/-- One iteration of the row loop of src/app.py lines 358-385 on the state
    `(best_match_url, best_match_size)`.  A row with exactly 4 cells raises
    `IndexError` at `cells[4]` (modeled by `Except.error`); the `.htm` check
    happens before the size parse; exact-type and substring matches share
    the same best-so-far slot, the substring branch firing only while
    `best_match_url` is empty. -/
def stepRow (formType : String) (st : String × PyFloat) (r : DocRow) :
    Except Unit (String × PyFloat) :=
  if 4 ≤ r.cells.length then
    match r.cells.get? 4 with
    | none => Except.error ()
    | some c4 =>
      if htmOk r.href = false then Except.ok st
      else
        match docSize (pyStrip c4) with
        | none => Except.error ()
        | some size =>
          if pyUpper (pyStrip ((r.cells.get? 3).getD "")) = pyUpper formType then
            if pfLt st.2 size = true then Except.ok (r.href, size) else Except.ok st
          else if st.1 = "" ∧
              strContains (pyUpper (pyStrip ((r.cells.get? 3).getD "")))
                (pyUpper formType) = true then
            if pfLt st.2 size = true then Except.ok (r.href, size) else Except.ok st
          else Except.ok st
  else Except.ok st

/-- The full row scan (the `for row in doc_rows` loop). -/
def scanRows (formType : String) : String × PyFloat → List DocRow →
    Except Unit (String × PyFloat)
  | st, [] => Except.ok st
  | st, r :: rs =>
    match stepRow formType st r with
    | Except.error e => Except.error e
    | Except.ok st' => scanRows formType st' rs

/-- `filing_url[:filing_url.rfind('/')+1]` (src/app.py line 393). -/
def baseOfUrl (s : String) : String :=
  String.mk ((s.data.reverse.dropWhile (fun c => !(c == '/'))).reverse)

/-- The URL absolutization of src/app.py lines 388-394. -/
def absolutize (filingUrl best : String) : String :=
  if strStarts best "http" = true then best
  else if strStarts best "/" = true then "https://www.sec.gov" ++ best
  else baseOfUrl filingUrl ++ best

/-- `if not filing_url.startswith('http')` normalization of src/app.py
    lines 346-347. -/
def normalizeFilingUrl (u : String) : String :=
  if strStarts u "http" = true then u else "https://www.sec.gov" ++ u

/-- The table-scan part of `get_matching_document` given the fetched rows
    (src/app.py lines 352-401): an exception anywhere in the loop is caught
    and yields the sentinel; an empty best URL yields the sentinel. -/
def getMatchingDocument (filingUrl formType : String) (rows : List DocRow) : String :=
  match scanRows formType ("", pfZero) rows with
  | Except.error _ => "None"
  | Except.ok st => if st.1 = "" then "None" else absolutize (normalizeFilingUrl filingUrl) st.1

/-- Model of the whole of `get_matching_document` (src/app.py lines 339-401).
    `page` is the fetched document table (`none` = the page fetch raised,
    caught by the same `except` branch).  The source returns Python `None`
    on the unavailable-URL precheck and the string `"None"` elsewhere; both
    are unresolved sentinels and are modeled as `"None"`. -/
def getMatchingDocFull (filingUrl formType : String) (page : Option (List DocRow)) : String :=
  if filingUrl = "" ∨ strContains filingUrl "unavailable" = true then "None"
  else
    match page with
    | none => "None"
    | some rows => getMatchingDocument filingUrl formType rows

/-! ### The query-API processing loop (src/app.py lines 404-498, `main_app`) -/

/-- Model of `build_filing_url` of src/app.py lines 297-312. -/
def buildFilingUrlApp (cik accession : String) : String :=
  if accession = "" then "URL unavailable"
  else
    "https://www.sec.gov/Archives/edgar/data/" ++ cik ++ "/" ++
      strReplace accession "-" "" ++ "/" ++ accession ++ "-index.htm"

/-- The fields of one query-API hit used by the loop, with the filing's
    document-index page attached as the page oracle's answer. -/
structure Hit where
  cik : String
  form : String
  dateFiled : String
  accession : String
  displayName : String
  page : Option (List DocRow)

/-- One output row of `all_filings` (src/app.py lines 471-482).  The
    regex-derived display fields (ticker, cleaned names) are pure string
    cosmetics no claim refers to and are not modeled. -/
structure FilingRow where
  cik : String
  form : String
  dateFiled : String
  entity : String
  located : String
  incorporated : String
  filingUrl : String
  mainDoc : String
deriving DecidableEq

/-- An outbound network action or an enforced pause, in program order. -/
inductive NetEvent where
  | req : String → NetEvent
  | sleep : Nat → NetEvent
deriving DecidableEq

/-- `SEC_DELAY` of src/app.py line 149 and src/project.py line 15,
    in milliseconds (0.5 s). -/
def SEC_DELAY_app : Nat := 500

/-- `SEC_DELAY` of src/project_reader.py line 14, in milliseconds (0.2 s). -/
def SEC_DELAY_reader : Nat := 200

/-- Processing of one hit (src/app.py lines 452-482): build the filing URL,
    resolve metadata (possibly fetching), resolve the main document
    (fetching unless the URL precheck fails), append one row.  Returns the
    row, the updated metadata cache, and the outbound requests issued. -/
def hitStep (sd : Bool) (fetch : String → Option RawCompany)
    (cache : List (String × CompanyDetails)) (h : Hit) :
    FilingRow × List (String × CompanyDetails) × List NetEvent :=
  let furl := buildFilingUrlApp h.cik h.accession
  let met := getCompanyDetails sd fetch cache h.cik
  let mdoc := getMatchingDocFull furl h.form h.page
  let evs :=
    met.2.2.map (fun c =>
      NetEvent.req ("https://data.sec.gov/submissions/CIK" ++ zfill 10 c ++ ".json")) ++
    (if furl = "" ∨ strContains furl "unavailable" = true then []
     else [NetEvent.req (normalizeFilingUrl furl)])
  (⟨h.cik, h.form, h.dateFiled, h.displayName, met.1.location, met.1.incorporated, furl, mdoc⟩,
   met.2.1, evs)

/-- The `for hit in hits` loop of src/app.py lines 452-482. -/
def runHits (sd : Bool) (fetch : String → Option RawCompany) :
    List (String × CompanyDetails) → List Hit →
    List FilingRow × List (String × CompanyDetails) × List NetEvent
  | cache, [] => ([], cache, [])
  | cache, h :: hs =>
    let s := hitStep sd fetch cache h
    let rest := runHits sd fetch s.2.1 hs
    (s.1 :: rest.1, rest.2.1, s.2.2 ++ rest.2.2)

/-- One iteration of the page loop of src/app.py lines 426-498: the search
    request, the per-hit requests, then `time.sleep(SEC_DELAY)`. -/
def pageStep (sd : Bool) (fetch : String → Option RawCompany)
    (cache : List (String × CompanyDetails)) (hits : List Hit) :
    List FilingRow × List (String × CompanyDetails) × List NetEvent :=
  let r := runHits sd fetch cache hits
  (r.1, r.2.1,
   NetEvent.req "https://efts.sec.gov/LATEST/search-index" :: r.2.2 ++
     [NetEvent.sleep SEC_DELAY_app])

/-- The whole page loop over a run's result pages. -/
def runPages (sd : Bool) (fetch : String → Option RawCompany) :
    List (String × CompanyDetails) → List (List Hit) →
    List FilingRow × List (String × CompanyDetails) × List NetEvent
  | cache, [] => ([], cache, [])
  | cache, p :: ps =>
    let s := pageStep sd fetch cache p
    let rest := runPages sd fetch s.2.1 ps
    (s.1 ++ rest.1, rest.2.1, s.2.2 ++ rest.2.2)

/-- Does the trace respect a minimum delay of `d` ms before every request
    after the first?  `acc` is the pause accumulated since the last request
    (initially at least `d`, since the first request needs no prior delay). -/
def checkDelays (d : Nat) : Nat → List NetEvent → Bool
  | _, [] => true
  | acc, NetEvent.req _ :: rest => decide (d ≤ acc) && checkDelays d 0 rest
  | acc, NetEvent.sleep q :: rest => checkDelays d (acc + q) rest

/-! ### Candidate-row characterizations used in theorem statements -/

/-- An exact-type candidate row of the scanned table: it has a type cell and
    a size cell, an HTML document link, a size that parses, and a declared
    type equal (case-insensitively) to the target form type. -/
def exactCand (ft : String) (r : DocRow) (s : PyFloat) : Prop :=
  ∃ c3 c4, r.cells.get? 3 = some c3 ∧ r.cells.get? 4 = some c4 ∧
    htmOk r.href = true ∧ docSize (pyStrip c4) = some s ∧
    pyUpper (pyStrip c3) = pyUpper ft

/-- A substring-match candidate row: as above but the declared type merely
    contains the target form type, without being equal to it. -/
def subCand (ft : String) (r : DocRow) (s : PyFloat) : Prop :=
  ∃ c3 c4, r.cells.get? 3 = some c3 ∧ r.cells.get? 4 = some c4 ∧
    htmOk r.href = true ∧ docSize (pyStrip c4) = some s ∧
    pyUpper (pyStrip c3) ≠ pyUpper ft ∧
    strContains (pyUpper (pyStrip c3)) (pyUpper ft) = true

/-! ### Concrete inputs used by counterexamples and witnesses -/

/-- Two co-filer lines of one daily index sharing one accession identifier. -/
def coFilerContent : String :=
  "Daily Index\nCIK|Company Name|Form Type|Date Filed|File Name\n--------------------\n123|Alpha Corp|10-K|20240102|edgar/data/123/0000000001-24-000007.txt\n456|Beta LLC|10-K|20240102|edgar/data/456/0000000001-24-000007.txt"

/-- A substring-match row (type 10-K/A) with a large size. -/
def rowPartialBig : DocRow := ⟨["1", "10-K/A Amendment", "d", "10-K/A", "1.1 MB"], "a.htm"⟩

/-- An exact-match row (type 10-K) with a small size. -/
def rowExactSmall : DocRow := ⟨["2", "Annual report", "d", "10-K", "12 KB"], "b.htm"⟩

/-- A substring-match row with an empty size text (parsed size 0). -/
def rowPartialNoSize : DocRow := ⟨["1", "Amendment", "d", "10-K/A", ""], "a.htm"⟩

/-- A later substring-match row with a positive size. -/
def rowPartialSized : DocRow := ⟨["2", "Second amendment", "d", "10-K/A2", "5 KB"], "b.htm"⟩

/-- An exact-type row whose document is a plain-text file. -/
def rowExactTxt : DocRow := ⟨["1", "Annual report", "d", "10-K", "99 KB"], "doc.txt"⟩

/-- A filing index URL used as resolution base in the examples. -/
def cexBase : String := "https://www.sec.gov/Archives/x/idx.htm"

/-- A registry answer for a Delaware company. -/
def rawDelaware : RawCompany := ⟨"Alpha Corp", "Wilmington", "DE", some "DE", none⟩

/-- A registry answer with an unrecognized jurisdiction code. -/
def rawUnknownState : RawCompany := ⟨"Acme", "Springfield", "ZZ", some "ZZ", none⟩

/-- A second unrecognized-code answer (used by a witness). -/
def rawUnknownState2 : RawCompany := ⟨"Acme", "Paris", "QQ", some "QQ", none⟩

/-- A well-formed hit whose document page is an empty table. -/
def cexHit : Hit := ⟨"123", "10-K", "2024-01-02", "0001234567-24-000001", "Alpha Corp", some []⟩

/-- An exact-type row of size 12 KB. -/
def rowExactKB : DocRow := ⟨["1", "Annual report", "d", "10-K", "12 KB"], "kb.htm"⟩

/-- An exact-type row of size 1.1 MB. -/
def rowExactMB : DocRow := ⟨["2", "Annual report", "d", "10-K", "1.1 MB"], "mb.htm"⟩

/-! ## Helper lemmas -/

theorem get?_some_lt {α : Type} : ∀ (l : List α) (n : Nat) (a : α),
    l.get? n = some a → n < l.length
  | [], n, a, h => by simp [List.get?] at h
  | _ :: t, 0, a, _ => Nat.succ_pos _
  | _ :: t, n + 1, a, h => Nat.succ_lt_succ (get?_some_lt t n a h)

theorem get?_none_le {α : Type} : ∀ (l : List α) (n : Nat),
    l.get? n = none → l.length ≤ n
  | [], n, _ => Nat.zero_le n
  | _ :: _, 0, h => by simp [List.get?] at h
  | _ :: t, n + 1, h => Nat.succ_le_succ (get?_none_le t n h)

theorem strAppend_empty (s : String) : s ++ "" = s := by
  cases s with
  | mk d =>
    show String.mk (d ++ []) = String.mk d
    rw [List.append_nil]

theorem parseLine_iff (l : String) (r : RawIndexRecord) :
    parseLine l = some r ↔
      splitStr '|' (pyStrip l) = [r.cik, r.name, r.form, r.dateFiled, r.filename] := by
  constructor
  · intro h
    unfold parseLine at h
    split at h
    next a b c d e heq =>
      cases h
      exact heq
    next =>
      simp at h
  · intro h
    unfold parseLine
    rw [h]

theorem parseLine_of_bad (l : String) (h : (splitStr '|' (pyStrip l)).length ≠ 5) :
    parseLine l = none := by
  unfold parseLine
  split
  next a b c d e heq =>
    rw [heq] at h
    simp at h
  next =>
    rfl

theorem afterSep_append (hdr : List String) (sp : String) (rest : List String)
    (h1 : ∀ l ∈ hdr, isSep l = false) (h2 : isSep sp = true) :
    afterSep (hdr ++ sp :: rest) = some rest := by
  induction hdr with
  | nil =>
    show afterSep (sp :: rest) = some rest
    unfold afterSep
    rw [if_pos h2]
  | cons a t ih =>
    have ha : isSep a = false := h1 a (List.mem_cons_self a t)
    show afterSep (a :: (t ++ sp :: rest)) = some rest
    unfold afterSep
    rw [if_neg (by simp [ha])]
    exact ih (fun l hl => h1 l (List.mem_cons_of_mem a hl))

theorem length_filterMap_isSome {α β : Type} (g : α → Option β) (l : List α) :
    (l.filterMap g).length = (l.filter (fun x => (g x).isSome)).length := by
  induction l with
  | nil => rfl
  | cons a t ih =>
    cases h : g a with
    | none => simp [List.filterMap_cons, List.filter_cons, h, ih]
    | some b => simp [List.filterMap_cons, List.filter_cons, h, ih]

theorem runHits_length (sd : Bool) (fetch : String → Option RawCompany) :
    ∀ (hits : List Hit) (cache : List (String × CompanyDetails)),
      (runHits sd fetch cache hits).1.length = hits.length := by
  intro hits
  induction hits with
  | nil => intro cache; rfl
  | cons h t ih =>
    intro cache
    show ((hitStep sd fetch cache h).1 ::
        (runHits sd fetch (hitStep sd fetch cache h).2.1 t).1).length = t.length + 1
    rw [List.length_cons, ih]

/-! ## Claim C4 -/

/-- C4: parsing emits one record per line (after the first dashed separator)
    whose stripped text splits on `|` into exactly 5 fields, preserving the
    5 fields losslessly; a line with any other field count is skipped
    silently without affecting adjacent lines. -/
theorem c4_parse_total_and_skip :
    (∀ (l : String) (r : RawIndexRecord),
        parseLine l = some r ↔
          splitStr '|' (pyStrip l) = [r.cik, r.name, r.form, r.dateFiled, r.filename]) ∧
    (∀ (xs ys : List String) (bad : String),
        (splitStr '|' (pyStrip bad)).length ≠ 5 →
        recordsOf (xs ++ bad :: ys) = recordsOf (xs ++ ys)) ∧
    (∀ (hdr : List String) (sp : String) (rest : List String),
        (∀ l ∈ hdr, isSep l = false) → isSep sp = true →
        parseIndexLines (hdr ++ sp :: rest) = recordsOf rest) := by
  refine ⟨parseLine_iff, ?_, ?_⟩
  · intro xs ys bad h
    unfold recordsOf
    rw [List.filterMap_append, List.filterMap_append]
    rw [List.filterMap_cons_none (parseLine_of_bad bad h)]
  · intro hdr sp rest h1 h2
    unfold parseIndexLines dataLines
    rw [afterSep_append hdr sp rest h1 h2]
    rfl

/-- Witness for C4 on a concrete 3-line index document. -/
theorem c4_parse_witness :
    parseIndexLines ["SEC Daily Index", "--------------------", "1|Alpha|10-K|20240102|a.txt"] =
      recordsOf ["1|Alpha|10-K|20240102|a.txt"] :=
  c4_parse_total_and_skip.2.2 ["SEC Daily Index"] "--------------------"
    ["1|Alpha|10-K|20240102|a.txt"] (by decide) (by decide)

/-! ## Claim C1 -/

/-- C1 counterexample: two co-filer raw records deriving the same accession
    identifier produce two rows, not one, in the finalized table of
    src/project.py. -/
theorem c1_dedup_counterexample :
    (processDay (fun _ => "") "10-K" coFilerContent).length = 2 ∧
    deriveAccession "edgar/data/123/0000000001-24-000007.txt" =
      deriveAccession "edgar/data/456/0000000001-24-000007.txt" ∧
    (2 : Nat) ≠ 1 := by
  exact ⟨by decide, by decide, by decide⟩

/-- C1 amended: the pipelines never merge raw records at all — each raw
    index line that parses and passes the form filter appends exactly one
    row (src/project.py), and each query-API hit appends exactly one row
    (src/app.py), regardless of shared accession identifiers. -/
theorem c1_no_merge_amended :
    (∀ (f : String → String) (ft : String) (content : String),
        (processDay f ft content).length =
          ((dataLines (splitLines content)).filter
            (fun l => (processLine f ft l).isSome)).length) ∧
    (∀ (sd : Bool) (fetch : String → Option RawCompany)
        (cache : List (String × CompanyDetails)) (hits : List Hit),
        (runHits sd fetch cache hits).1.length = hits.length) := by
  constructor
  · intro f ft content
    exact length_filterMap_isSome (processLine f ft) (dataLines (splitLines content))
  · intro sd fetch cache hits
    exact runHits_length sd fetch hits cache

/-! ## Claim C3 -/

/-- C3 counterexample: the matcher does not case-normalize the selection
    entry — with the lowercase selection entry `10-k` it answers `false`
    although the uppercased raw form type does start with the uppercased
    selection entry, so the claimed iff fails. -/
theorem c3_matcher_counterexample :
    formMatches "10-K405" ["10-k"] = false ∧
    strStarts (pyUpper (pyStrip "10-K405")) (pyUpper "10-k") = true := by
  exact ⟨by decide, by decide⟩

/-- C3 amended: only the raw form type is stripped and uppercased; selection
    entries are compared as given.  For selections whose entries are already
    uppercase (as all selections the program builds are), the claimed
    semantics holds, and the two cited examples hold. -/
theorem c3_matcher_amended :
    (∀ (form : String) (sel : List String), (∀ t ∈ sel, pyUpper t = t) →
        (formMatches form sel = true ↔
          ∃ t ∈ sel, strStarts (pyUpper (pyStrip form)) (pyUpper t) = true)) ∧
    formMatches "10-K405" ["10-K"] = true ∧
    formMatches "NT 10-K" ["10-K"] = false := by
  refine ⟨?_, by decide, by decide⟩
  intro form sel hsel
  unfold formMatches
  rw [List.any_eq_true]
  constructor
  · rintro ⟨t, ht, hm⟩
    refine ⟨t, ht, ?_⟩
    rw [hsel t ht]
    exact hm
  · rintro ⟨t, ht, hm⟩
    refine ⟨t, ht, ?_⟩
    rw [hsel t ht] at hm
    exact hm

/-- Witness for C3's amended equivalence at a concrete form and selection. -/
theorem c3_matcher_witness :
    formMatches "10-K405" ["10-K"] = true ↔
      ∃ t ∈ ["10-K"], strStarts (pyUpper (pyStrip "10-K405")) (pyUpper t) = true :=
  c3_matcher_amended.1 "10-K405" ["10-K"] (by decide)

/-! ## Claim C2 -/

theorem runCalls_cons (sd : Bool) (fetch : String → Option RawCompany)
    (cache : List (String × CompanyDetails)) (c : String) (cs : List String) :
    runCalls sd fetch cache (c :: cs) =
      ((getCompanyDetails sd fetch cache c).1 ::
        (runCalls sd fetch (getCompanyDetails sd fetch cache c).2.1 cs).1,
       (runCalls sd fetch (getCompanyDetails sd fetch cache c).2.1 cs).2.1,
       (getCompanyDetails sd fetch cache c).2.2 ++
         (runCalls sd fetch (getCompanyDetails sd fetch cache c).2.1 cs).2.2) := rfl

theorem getDetails_hit (fetch : String → Option RawCompany)
    (cache : List (String × CompanyDetails)) (cik : String) (d : CompanyDetails)
    (h : lookupStr cik cache = some d) :
    getCompanyDetails true fetch cache cik = (d, cache, []) := by
  unfold getCompanyDetails
  rw [h]

theorem getDetails_miss_fetch (fetch : String → Option RawCompany)
    (cache : List (String × CompanyDetails)) (cik : String) (raw : RawCompany)
    (h : lookupStr cik cache = none) (hf : fetch cik = some raw) :
    getCompanyDetails true fetch cache cik =
      (mkDetails raw, (cik, mkDetails raw) :: cache, [cik]) := by
  unfold getCompanyDetails
  rw [h, if_neg (by simp), hf]

theorem countOcc_append (a : String) (l m : List String) :
    countOcc a (l ++ m) = countOcc a l + countOcc a m := by
  induction l with
  | nil => simp [countOcc]
  | cons b bs ih => simp [countOcc, ih, Nat.add_assoc]

theorem lookupStr_cons_isSome {α : Type} (k c : String) (v : α)
    (cache : List (String × α)) (h : (lookupStr k cache).isSome = true) :
    (lookupStr k ((c, v) :: cache)).isSome = true := by
  by_cases hc : c = k
  · unfold lookupStr
    rw [if_pos hc]
    rfl
  · unfold lookupStr
    rw [if_neg hc]
    exact h

theorem runCalls_fetch_bound (fetch : String → Option RawCompany)
    (hf : ∀ c, (fetch c).isSome = true) (cik : String) :
    ∀ (calls : List String) (cache : List (String × CompanyDetails)),
      countOcc cik ((runCalls true fetch cache calls).2.2) ≤ 1 ∧
      ((lookupStr cik cache).isSome = true →
        countOcc cik ((runCalls true fetch cache calls).2.2) = 0) := by
  intro calls
  induction calls with
  | nil =>
    intro cache
    exact ⟨Nat.zero_le 1, fun _ => rfl⟩
  | cons c cs ih =>
    intro cache
    rw [runCalls_cons]
    cases hc : lookupStr c cache with
    | some d =>
      rw [getDetails_hit fetch cache c d hc]
      exact ⟨(ih cache).1, fun hk => (ih cache).2 hk⟩
    | none =>
      cases hfa : fetch c with
      | none =>
        have hfc := hf c
        rw [hfa] at hfc
        simp at hfc
      | some raw =>
        rw [getDetails_miss_fetch fetch cache c raw hc hfa]
        constructor
        · by_cases hcc : c = cik
          · subst hcc
            have h0 : countOcc c
                ((runCalls true fetch ((c, mkDetails raw) :: cache) cs).2.2) = 0 := by
              refine (ih _).2 ?_
              unfold lookupStr
              rw [if_pos rfl]
              rfl
            show countOcc c ([c] ++ (runCalls true fetch ((c, mkDetails raw) :: cache) cs).2.2) ≤ 1
            rw [countOcc_append, h0]
            simp [countOcc]
          · show countOcc cik
              ([c] ++ (runCalls true fetch ((c, mkDetails raw) :: cache) cs).2.2) ≤ 1
            rw [countOcc_append]
            have h1 : countOcc cik [c] = 0 := by simp [countOcc, hcc]
            rw [h1]
            simpa using (ih _).1
        · intro hk
          have hcc : ¬ c = cik := by
            intro he
            rw [he] at hc
            rw [hc] at hk
            simp at hk
          show countOcc cik
            ([c] ++ (runCalls true fetch ((c, mkDetails raw) :: cache) cs).2.2) = 0
          rw [countOcc_append]
          have h1 : countOcc cik [c] = 0 := by simp [countOcc, hcc]
          have h2 : countOcc cik
              ((runCalls true fetch ((c, mkDetails raw) :: cache) cs).2.2) = 0 :=
            (ih _).2 (lookupStr_cons_isSome cik c (mkDetails raw) cache hk)
          rw [h1, h2]

/-- C2 counterexample: when the metadata fetch for a filer raises, the
    result is not cached, so a second `get_company_details` call for the
    same filer identifier issues a second network fetch. -/
theorem c2_cache_counterexample :
    countOcc "1" ((runCalls true (fun _ => none) [] ["1", "1"]).2.2) = 2 ∧
    ¬ (2 : Nat) ≤ 1 := by
  exact ⟨by decide, by decide⟩

/-- C2 amended: when every issued fetch succeeds, at most one network fetch
    is issued per distinct filer identifier per run (the first success is
    memoized); a cache hit returns the cached details with no fetch.  A
    failed fetch is not cached, and a later call for the same identifier
    fetches again. -/
theorem c2_cache_amended :
    (∀ (fetch : String → Option RawCompany) (calls : List String) (cik : String),
        (∀ c, (fetch c).isSome = true) →
        countOcc cik ((runCalls true fetch [] calls).2.2) ≤ 1) ∧
    (∀ (fetch : String → Option RawCompany) (cache : List (String × CompanyDetails))
        (cik : String) (d : CompanyDetails), lookupStr cik cache = some d →
        getCompanyDetails true fetch cache cik = (d, cache, [])) := by
  constructor
  · intro fetch calls cik hfet
    exact (runCalls_fetch_bound fetch hfet cik calls []).1
  · intro fetch cache cik d hd
    exact getDetails_hit fetch cache cik d hd

/-- Witness for C2's amended bound with a total fetch oracle and a repeated
    filer identifier. -/
theorem c2_cache_witness :
    countOcc "7" ((runCalls true (fun _ => some rawDelaware) [] ["7", "7"]).2.2) ≤ 1 :=
  c2_cache_amended.1 (fun _ => some rawDelaware) ["7", "7"] "7" (fun _ => rfl)

/-! ## Claim C8 -/

/-- C8 counterexample: an unrecognized business-location code is replaced by
    the empty string (`STATE_ABBREV.get(code, '')`), not passed through
    unchanged, so the location reads `"Springfield, "` instead of
    `"Springfield, ZZ"`. -/
theorem c8_jurisdiction_counterexample :
    (mkDetails rawUnknownState).location = "Springfield, " ∧
    "Springfield, " ≠ "Springfield, ZZ" := by
  exact ⟨by decide, by decide⟩

/-- C8 amended: recognized codes map through `STATE_ABBREV` for both fields;
    an unrecognized incorporation code passes through unchanged, but an
    unrecognized business-location code maps to the empty string. -/
theorem c8_jurisdiction_amended :
    (∀ r : RawCompany, lookupStr r.stateOrCountry STATE_ABBREV = none →
        (mkDetails r).location = r.city ++ ", ") ∧
    (∀ r : RawCompany, lookupStr (pyUpper (incCode r)) STATE_ABBREV = none →
        (mkDetails r).incorporated = incCode r) ∧
    (mkDetails rawDelaware).incorporated = "Delaware" ∧
    (mkDetails rawDelaware).location = "Wilmington, Delaware" := by
  refine ⟨?_, ?_, by decide, by decide⟩
  · intro r h
    show r.city ++ ", " ++ (lookupStr r.stateOrCountry STATE_ABBREV).getD "" = r.city ++ ", "
    rw [h]
    show r.city ++ ", " ++ "" = r.city ++ ", "
    rw [strAppend_empty]
  · intro r h
    show (lookupStr (pyUpper (incCode r)) STATE_ABBREV).getD (incCode r) = incCode r
    rw [h]
    rfl

/-- Witness for C8's amended pass-through behavior on a second unrecognized
    code. -/
theorem c8_jurisdiction_witness :
    (mkDetails rawUnknownState2).location = "Paris, " ∧
    (mkDetails rawUnknownState2).incorporated = "QQ" :=
  ⟨c8_jurisdiction_amended.1 rawUnknownState2 (by decide),
   c8_jurisdiction_amended.2.1 rawUnknownState2 (by decide)⟩

/-! ## Document-resolver helper lemmas -/

theorem scanRows_nil (ft : String) (st : String × PyFloat) :
    scanRows ft st [] = Except.ok st := rfl

theorem scanRows_cons_ok (ft : String) (st st' : String × PyFloat) (r : DocRow)
    (rs : List DocRow) (h : stepRow ft st r = Except.ok st') :
    scanRows ft st (r :: rs) = scanRows ft st' rs := by
  show (match stepRow ft st r with
    | Except.error e => Except.error e
    | Except.ok st1 => scanRows ft st1 rs) = scanRows ft st' rs
  rw [h]

theorem scanRows_cons_err (ft : String) (st : String × PyFloat) (r : DocRow)
    (rs : List DocRow) (e : Unit) (h : stepRow ft st r = Except.error e) :
    scanRows ft st (r :: rs) = Except.error e := by
  show (match stepRow ft st r with
    | Except.error e => Except.error e
    | Except.ok st1 => scanRows ft st1 rs) = Except.error e
  rw [h]

theorem stepRow_ok_href (ft : String) (st : String × PyFloat) (r : DocRow)
    (st' : String × PyFloat) (h : stepRow ft st r = Except.ok st') :
    st'.1 = st.1 ∨ st'.1 = r.href := by
  unfold stepRow at h
  split at h
  · split at h
    · exact absurd h (by simp)
    · split at h
      · cases h
        exact Or.inl rfl
      · split at h
        · exact absurd h (by simp)
        · split at h
          · split at h
            · cases h
              exact Or.inr rfl
            · cases h
              exact Or.inl rfl
          · split at h
            · split at h
              · cases h
                exact Or.inr rfl
              · cases h
                exact Or.inl rfl
            · cases h
              exact Or.inl rfl
  · cases h
    exact Or.inl rfl

theorem scanRows_ok_mem (ft : String) :
    ∀ (rows : List DocRow) (st st' : String × PyFloat),
      scanRows ft st rows = Except.ok st' →
      st'.1 = st.1 ∨ ∃ r ∈ rows, st'.1 = r.href := by
  intro rows
  induction rows with
  | nil =>
    intro st st' h
    rw [scanRows_nil] at h
    cases h
    exact Or.inl rfl
  | cons r rs ih =>
    intro st st' h
    cases hs : stepRow ft st r with
    | error e =>
      rw [scanRows_cons_err ft st r rs e hs] at h
      exact absurd h (by simp)
    | ok st1 =>
      rw [scanRows_cons_ok ft st st1 r rs hs] at h
      rcases ih st1 st' h with h1 | ⟨r', hr', h2⟩
      · rcases stepRow_ok_href ft st r st1 hs with h3 | h3
        · exact Or.inl (h1.trans h3)
        · exact Or.inr ⟨r, List.mem_cons_self r rs, h1.trans h3⟩
      · exact Or.inr ⟨r', List.mem_cons_of_mem r hr', h2⟩

theorem htmOk_ne (u : String) (h : htmOk u = true) : ¬ u = "" := by
  intro he
  rw [he] at h
  exact absurd h (by decide)

theorem stepRow_skip (ft : String) (st : String × PyFloat) (r : DocRow)
    (hhtm : htmOk r.href = false) (h4 : r.cells.length ≠ 4) :
    stepRow ft st r = Except.ok st := by
  unfold stepRow
  split
  next hlen =>
    cases hg : r.cells.get? 4 with
    | none =>
      have hle := get?_none_le r.cells 4 hg
      omega
    | some c4 =>
      simp only [hg]
  next hlen => rfl

theorem scanRows_skip (ft : String) (r : DocRow)
    (hhtm : htmOk r.href = false) (h4 : r.cells.length ≠ 4) :
    ∀ (xs ys : List DocRow) (st : String × PyFloat),
      scanRows ft st (xs ++ r :: ys) = scanRows ft st (xs ++ ys) := by
  intro xs
  induction xs with
  | nil =>
    intro ys st
    show scanRows ft st (r :: ys) = scanRows ft st ys
    rw [scanRows_cons_ok ft st st r ys (stepRow_skip ft st r hhtm h4)]
  | cons x t ih =>
    intro ys st
    show scanRows ft st (x :: (t ++ r :: ys)) = scanRows ft st (x :: (t ++ ys))
    cases hsx : stepRow ft st x with
    | error e =>
      rw [scanRows_cons_err ft st x (t ++ r :: ys) e hsx,
          scanRows_cons_err ft st x (t ++ ys) e hsx]
    | ok st1 =>
      rw [scanRows_cons_ok ft st st1 x (t ++ r :: ys) hsx,
          scanRows_cons_ok ft st st1 x (t ++ ys) hsx]
      exact ih ys st1

theorem runHits_mainDoc (sd : Bool) (fetch : String → Option RawCompany) :
    ∀ (hits : List Hit) (cache : List (String × CompanyDetails)),
      List.Forall₂ (fun (h : Hit) (row : FilingRow) =>
        row.mainDoc = getMatchingDocFull (buildFilingUrlApp h.cik h.accession) h.form h.page)
        hits (runHits sd fetch cache hits).1 := by
  intro hits
  induction hits with
  | nil =>
    intro cache
    exact List.Forall₂.nil
  | cons h t ih =>
    intro cache
    show List.Forall₂ _ (h :: t)
      ((hitStep sd fetch cache h).1 :: (runHits sd fetch (hitStep sd fetch cache h).2.1 t).1)
    exact List.Forall₂.cons rfl (ih _)

/-! ## Claim C7 -/

/-- C7: when the page fetch fails or no strategy yields a candidate, the
    resolver answers the sentinel `"None"` instead of raising (every answer
    is either the sentinel or an absolutized row href), and the caller still
    emits exactly one row per hit whose main-document field is the
    resolver's answer — a sentinel answer does not drop the record. -/
theorem c7_sentinel_and_emission :
    (∀ (fu ft : String), getMatchingDocFull fu ft none = "None") ∧
    (∀ (fu ft : String) (rows : List DocRow),
        getMatchingDocFull fu ft (some rows) = "None" ∨
        ∃ r ∈ rows, getMatchingDocFull fu ft (some rows) =
          absolutize (normalizeFilingUrl fu) r.href) ∧
    (∀ (sd : Bool) (fetch : String → Option RawCompany)
        (cache : List (String × CompanyDetails)) (hits : List Hit),
        (runHits sd fetch cache hits).1.length = hits.length ∧
        List.Forall₂ (fun (h : Hit) (row : FilingRow) =>
          row.mainDoc = getMatchingDocFull (buildFilingUrlApp h.cik h.accession) h.form h.page)
          hits (runHits sd fetch cache hits).1) := by
  refine ⟨?_, ?_, ?_⟩
  · intro fu ft
    unfold getMatchingDocFull
    split
    · rfl
    · rfl
  · intro fu ft rows
    unfold getMatchingDocFull
    split
    · exact Or.inl rfl
    · dsimp only
      unfold getMatchingDocument
      cases hs : scanRows ft ("", pfZero) rows with
      | error e =>
        simp only [hs]
        exact Or.inl trivial
      | ok st =>
        by_cases he : st.1 = ""
        · simp only [hs]
          rw [if_pos he]
          exact Or.inl rfl
        · rcases scanRows_ok_mem ft rows ("", pfZero) st hs with h1 | ⟨r, hr, h2⟩
          · exact absurd h1 he
          · refine Or.inr ⟨r, hr, ?_⟩
            simp only [hs]
            rw [if_neg he, h2]
  · intro sd fetch cache hits
    exact ⟨runHits_length sd fetch hits cache, runHits_mainDoc sd fetch hits cache⟩

/-! ## Claim C10 -/

/-- C10: a row whose document href does not end in `.htm`/`.html`
    (case-insensitively) is skipped before any type or size comparison, so
    removing it from the table does not change the scan; in particular a
    lone exact-type `.txt` row leaves the resolver at the unresolved
    sentinel. -/
theorem c10_htm_filter :
    (∀ (ft : String) (st : String × PyFloat) (xs ys : List DocRow) (r : DocRow),
        htmOk r.href = false → r.cells.length ≠ 4 →
        scanRows ft st (xs ++ r :: ys) = scanRows ft st (xs ++ ys)) ∧
    getMatchingDocument cexBase "10-K" [rowExactTxt] = "None" ∧
    pyUpper (pyStrip "10-K") = pyUpper "10-K" ∧
    htmOk "doc.txt" = false := by
  refine ⟨?_, by decide, by decide, by decide⟩
  intro ft st xs ys r h1 h2
  exact scanRows_skip ft r h1 h2 xs ys st

/-- Witness for C10: dropping the lone `.txt` row from a concrete table
    leaves the scan unchanged. -/
theorem c10_htm_filter_witness :
    scanRows "10-K" ("", pfZero) ([] ++ rowExactTxt :: []) =
      scanRows "10-K" ("", pfZero) ([] ++ []) :=
  c10_htm_filter.1 "10-K" ("", pfZero) [] [] rowExactTxt (by decide) (by decide)

/-! ## Claim C9 -/

/-- C9 counterexample: within one page, the per-hit metadata fetch and
    document-resolution fetch are issued back-to-back with no intervening
    sleep, so the run's request trace violates the global 500 ms minimum
    inter-request delay; moreover src/project_reader.py uses a 200 ms
    delay, not 500 ms. -/
theorem c9_delay_counterexample :
    checkDelays SEC_DELAY_app SEC_DELAY_app
      ((runPages true (fun _ => some rawDelaware) [] [[cexHit]]).2.2) = false ∧
    SEC_DELAY_reader ≠ SEC_DELAY_app := by
  exact ⟨by decide, by decide⟩

/-- C9 amended: the 500 ms sleep is executed once per result page, after the
    page's hits — so consecutive page fetches are separated by the delay —
    while the metadata and document-resolution requests issued inside a page
    have no enforced delay between them; src/project_reader.py separates its
    rows by 200 ms instead. -/
theorem c9_delay_amended :
    (∀ (sd : Bool) (fetch : String → Option RawCompany)
        (cache : List (String × CompanyDetails)) (hits : List Hit),
        ∃ evs : List NetEvent,
          (pageStep sd fetch cache hits).2.2 =
            NetEvent.req "https://efts.sec.gov/LATEST/search-index" :: evs ++
              [NetEvent.sleep SEC_DELAY_app]) ∧
    SEC_DELAY_app = 500 ∧ SEC_DELAY_reader = 200 := by
  refine ⟨?_, rfl, rfl⟩
  intro sd fetch cache hits
  exact ⟨(runHits sd fetch cache hits).2.2, rfl⟩

/-! ## Size-order and candidate-step lemmas -/

theorem pfLt_iff_val (a b : PyFloat) : pfLt a b = true ↔ pfVal a < pfVal b := by
  unfold pfLt pfVal
  rw [decide_eq_true_eq]
  rw [div_lt_div_iff₀ (by positivity) (by positivity)]
  constructor
  · intro h
    exact_mod_cast h
  · intro h
    exact_mod_cast h

theorem stepRow_exact (ft : String) (st : String × PyFloat) (r : DocRow)
    (c3 c4 : String) (s : PyFloat)
    (h3 : r.cells.get? 3 = some c3) (h4 : r.cells.get? 4 = some c4)
    (hhtm : htmOk r.href = true) (hsz : docSize (pyStrip c4) = some s)
    (hty : pyUpper (pyStrip c3) = pyUpper ft) :
    stepRow ft st r =
      (if pfLt st.2 s = true then Except.ok (r.href, s) else Except.ok st) := by
  have hlen : 4 ≤ r.cells.length := Nat.le_of_lt (get?_some_lt r.cells 4 c4 h4)
  unfold stepRow
  rw [if_pos hlen]
  simp only [h4, h3, Option.getD_some]
  rw [if_neg (by rw [hhtm]; simp)]
  simp only [hsz]
  rw [if_pos hty]

theorem stepRow_sub (ft : String) (st : String × PyFloat) (r : DocRow)
    (c3 c4 : String) (s : PyFloat)
    (h3 : r.cells.get? 3 = some c3) (h4 : r.cells.get? 4 = some c4)
    (hhtm : htmOk r.href = true) (hsz : docSize (pyStrip c4) = some s)
    (hty : ¬ pyUpper (pyStrip c3) = pyUpper ft)
    (hcont : strContains (pyUpper (pyStrip c3)) (pyUpper ft) = true) :
    stepRow ft st r =
      (if st.1 = "" then
        (if pfLt st.2 s = true then Except.ok (r.href, s) else Except.ok st)
       else Except.ok st) := by
  have hlen : 4 ≤ r.cells.length := Nat.le_of_lt (get?_some_lt r.cells 4 c4 h4)
  unfold stepRow
  rw [if_pos hlen]
  simp only [h4, h3, Option.getD_some]
  rw [if_neg (by rw [hhtm]; simp)]
  simp only [hsz]
  rw [if_neg hty]
  by_cases he : st.1 = ""
  · rw [if_pos ⟨he, hcont⟩, if_pos he]
  · rw [if_neg (fun hc => he hc.1), if_neg he]

theorem scanRows_sub_zero (ft : String) :
    ∀ (xs : List DocRow) (zs : List PyFloat),
      List.Forall₂ (subCand ft) xs zs → (∀ z ∈ zs, pfLt pfZero z = false) →
      ∀ (rest : List DocRow),
        scanRows ft ("", pfZero) (xs ++ rest) = scanRows ft ("", pfZero) rest := by
  intro xs zs hf
  induction hf with
  | nil =>
    intro hz rest
    rfl
  | @cons x z xs' zs' hxz htl ih =>
    intro hz rest
    obtain ⟨c3, c4, h3, h4, hh, hs, hne, hc⟩ := hxz
    have hz0 : pfLt pfZero z = false := hz z (List.mem_cons_self z zs')
    have e1 : stepRow ft ("", pfZero) x = Except.ok ("", pfZero) := by
      rw [stepRow_sub ft ("", pfZero) x c3 c4 z h3 h4 hh hs hne hc]
      rw [if_pos rfl, if_neg (by rw [hz0]; simp)]
    show scanRows ft ("", pfZero) (x :: (xs' ++ rest)) = scanRows ft ("", pfZero) rest
    rw [scanRows_cons_ok ft ("", pfZero) ("", pfZero) x (xs' ++ rest) e1]
    exact ih (fun w hw => hz w (List.mem_cons_of_mem z hw)) rest

theorem scanRows_sub_keep (ft : String) (u : String) (q : PyFloat) (hu : ¬ u = "") :
    ∀ (ys : List DocRow) (ws : List PyFloat),
      List.Forall₂ (subCand ft) ys ws →
      scanRows ft (u, q) ys = Except.ok (u, q) := by
  intro ys ws hf
  induction hf with
  | nil => rfl
  | @cons y w ys' ws' hxz htl ih =>
    obtain ⟨c3, c4, h3, h4, hh, hs, hne, hc⟩ := hxz
    have e1 : stepRow ft (u, q) y = Except.ok (u, q) := by
      rw [stepRow_sub ft (u, q) y c3 c4 w h3 h4 hh hs hne hc]
      rw [if_neg hu]
    rw [scanRows_cons_ok ft (u, q) (u, q) y ys' e1]
    exact ih

/-! ## Claim C5 -/

/-- C5 counterexample: a substring-match row (`10-K/A`, 1.1 MB) scanned
    before the only exact-type row (`10-K`, 12 KB) wins the shared
    best-match slot, so the selected document is not the largest
    exact-type row. -/
theorem c5_size_counterexample :
    getMatchingDocument cexBase "10-K" [rowPartialBig, rowExactSmall] =
      "https://www.sec.gov/Archives/x/a.htm" ∧
    pyUpper (pyStrip "10-K/A") ≠ pyUpper "10-K" ∧
    pyUpper (pyStrip "10-K") = pyUpper "10-K" ∧
    "https://www.sec.gov/Archives/x/a.htm" ≠ "https://www.sec.gov/Archives/x/b.htm" ∧
    absolutize (normalizeFilingUrl cexBase) rowExactSmall.href =
      "https://www.sec.gov/Archives/x/b.htm" := by
  refine ⟨by decide, by decide, by decide, by decide, by decide⟩

/-- C5 amended: among exact-type candidate rows, and in the absence of
    interfering substring-match rows, the row with the strictly larger
    parsed size is selected in either scan order (KB/MB suffixes being
    converted to bytes first); in particular 12 KB loses to 1.1 MB. -/
theorem c5_size_amended :
    (∀ (ft fu : String) (r1 r2 : DocRow) (s1 s2 : PyFloat),
        exactCand ft r1 s1 → exactCand ft r2 s2 →
        pfLt s1 pfZero = false → pfLt s1 s2 = true →
        getMatchingDocument fu ft [r1, r2] = absolutize (normalizeFilingUrl fu) r2.href ∧
        getMatchingDocument fu ft [r2, r1] = absolutize (normalizeFilingUrl fu) r2.href) ∧
    docSize "12 KB" = some ⟨false, 12288, 0⟩ ∧
    docSize "1.1 MB" = some ⟨false, 11534336, 1⟩ ∧
    pfLt ⟨false, 12288, 0⟩ ⟨false, 11534336, 1⟩ = true ∧
    getMatchingDocument cexBase "10-K" [rowExactKB, rowExactMB] =
      "https://www.sec.gov/Archives/x/mb.htm" := by
  refine ⟨?_, by decide, by decide, by decide, by decide⟩
  intro ft fu r1 r2 s1 s2 h1 h2 hge hlt
  obtain ⟨c3a, c4a, h3a, h4a, hha, hsa, hta⟩ := h1
  obtain ⟨c3b, c4b, h3b, h4b, hhb, hsb, htb⟩ := h2
  have hv1 : ¬ pfVal s1 < pfVal pfZero := by
    rw [← pfLt_iff_val]
    simp [hge]
  have hv12 : pfVal s1 < pfVal s2 := (pfLt_iff_val s1 s2).mp hlt
  have hz : pfVal pfZero = 0 := by
    unfold pfVal pfNum pfZero
    norm_num
  have h02 : pfLt pfZero s2 = true := by
    rw [pfLt_iff_val, hz]
    have h10 : (0 : ℚ) ≤ pfVal s1 := by
      rw [← hz]
      exact not_lt.mp hv1
    linarith
  have hb2 : ¬ r2.href = "" := htmOk_ne r2.href hhb
  constructor
  · unfold getMatchingDocument
    by_cases h0 : pfLt pfZero s1 = true
    · have e1 : stepRow ft ("", pfZero) r1 = Except.ok (r1.href, s1) := by
        rw [stepRow_exact ft ("", pfZero) r1 c3a c4a s1 h3a h4a hha hsa hta, if_pos h0]
      have e2 : stepRow ft (r1.href, s1) r2 = Except.ok (r2.href, s2) := by
        rw [stepRow_exact ft (r1.href, s1) r2 c3b c4b s2 h3b h4b hhb hsb htb, if_pos hlt]
      rw [scanRows_cons_ok ft ("", pfZero) (r1.href, s1) r1 [r2] e1,
          scanRows_cons_ok ft (r1.href, s1) (r2.href, s2) r2 [] e2,
          scanRows_nil]
      dsimp only
      rw [if_neg hb2]
    · have e1 : stepRow ft ("", pfZero) r1 = Except.ok ("", pfZero) := by
        rw [stepRow_exact ft ("", pfZero) r1 c3a c4a s1 h3a h4a hha hsa hta, if_neg h0]
      have e2 : stepRow ft ("", pfZero) r2 = Except.ok (r2.href, s2) := by
        rw [stepRow_exact ft ("", pfZero) r2 c3b c4b s2 h3b h4b hhb hsb htb, if_pos h02]
      rw [scanRows_cons_ok ft ("", pfZero) ("", pfZero) r1 [r2] e1,
          scanRows_cons_ok ft ("", pfZero) (r2.href, s2) r2 [] e2,
          scanRows_nil]
      dsimp only
      rw [if_neg hb2]
  · unfold getMatchingDocument
    have e1 : stepRow ft ("", pfZero) r2 = Except.ok (r2.href, s2) := by
      rw [stepRow_exact ft ("", pfZero) r2 c3b c4b s2 h3b h4b hhb hsb htb, if_pos h02]
    have hnlt : ¬ pfLt s2 s1 = true := by
      rw [pfLt_iff_val]
      exact not_lt.mpr (le_of_lt hv12)
    have e2 : stepRow ft (r2.href, s2) r1 = Except.ok (r2.href, s2) := by
      rw [stepRow_exact ft (r2.href, s2) r1 c3a c4a s1 h3a h4a hha hsa hta, if_neg hnlt]
    rw [scanRows_cons_ok ft ("", pfZero) (r2.href, s2) r2 [r1] e1,
        scanRows_cons_ok ft (r2.href, s2) (r2.href, s2) r1 [] e2,
        scanRows_nil]
    dsimp only
    rw [if_neg hb2]

/-- Witness for C5's amended selection at the claim's own 12 KB / 1.1 MB
    example, in both scan orders. -/
theorem c5_size_witness :
    getMatchingDocument cexBase "10-K" [rowExactKB, rowExactMB] =
      absolutize (normalizeFilingUrl cexBase) rowExactMB.href ∧
    getMatchingDocument cexBase "10-K" [rowExactMB, rowExactKB] =
      absolutize (normalizeFilingUrl cexBase) rowExactMB.href :=
  c5_size_amended.1 "10-K" cexBase rowExactKB rowExactMB
    ⟨false, 12288, 0⟩ ⟨false, 11534336, 1⟩
    ⟨"10-K", "12 KB", by decide, by decide, by decide, by decide, by decide⟩
    ⟨"10-K", "1.1 MB", by decide, by decide, by decide, by decide, by decide⟩
    (by decide) (by decide)

/-! ## Claim C6 -/

/-- C6 counterexample: with no exact-type row present, the resolver does not
    return the first row whose type contains the target — a first
    substring-match row with no reported size is passed over in favor of a
    later substring-match row with a positive size. -/
theorem c6_strategy_counterexample :
    getMatchingDocument cexBase "10-K" [rowPartialNoSize, rowPartialSized] =
      "https://www.sec.gov/Archives/x/b.htm" ∧
    strContains (pyUpper (pyStrip "10-K/A")) (pyUpper "10-K") = true ∧
    pyUpper (pyStrip "10-K/A") ≠ pyUpper "10-K" ∧
    pyUpper (pyStrip "10-K/A2") ≠ pyUpper "10-K" ∧
    "https://www.sec.gov/Archives/x/b.htm" ≠
      absolutize (normalizeFilingUrl cexBase) rowPartialNoSize.href := by
  refine ⟨by decide, by decide, by decide, by decide, by decide⟩

/-- C6 amended: the resolver is a single shared-state pass, not three
    ordered strategies; when every row is a substring-match candidate and no
    exact-type match exists, the selected document is the first
    substring-match row whose parsed size is positive (rows of
    non-positive size before it are passed over). -/
theorem c6_strategy_amended :
    ∀ (ft fu : String) (xs : List DocRow) (zs : List PyFloat) (r : DocRow) (s : PyFloat)
      (ys : List DocRow) (ws : List PyFloat),
      List.Forall₂ (subCand ft) xs zs → (∀ z ∈ zs, pfLt pfZero z = false) →
      subCand ft r s → pfLt pfZero s = true →
      List.Forall₂ (subCand ft) ys ws →
      getMatchingDocument fu ft (xs ++ r :: ys) =
        absolutize (normalizeFilingUrl fu) r.href := by
  intro ft fu xs zs r s ys ws hxs hz hr hs hys
  obtain ⟨c3, c4, h3, h4, hh, hsz, hne, hc⟩ := hr
  have hbr : ¬ r.href = "" := htmOk_ne r.href hh
  unfold getMatchingDocument
  rw [scanRows_sub_zero ft xs zs hxs hz (r :: ys)]
  have e1 : stepRow ft ("", pfZero) r = Except.ok (r.href, s) := by
    rw [stepRow_sub ft ("", pfZero) r c3 c4 s h3 h4 hh hsz hne hc]
    rw [if_pos rfl, if_pos hs]
  rw [scanRows_cons_ok ft ("", pfZero) (r.href, s) r ys e1]
  rw [scanRows_sub_keep ft r.href s hbr ys ws hys]
  dsimp only
  rw [if_neg hbr]

/-- Witness for C6's amended first-positive-size selection on a concrete
    two-row table. -/
theorem c6_strategy_witness :
    getMatchingDocument cexBase "10-K" ([rowPartialNoSize] ++ rowPartialSized :: []) =
      absolutize (normalizeFilingUrl cexBase) rowPartialSized.href :=
  c6_strategy_amended "10-K" cexBase [rowPartialNoSize] [pfZero] rowPartialSized
    ⟨false, 5120, 0⟩ [] []
    (List.Forall₂.cons
      ⟨"10-K/A", "", by decide, by decide, by decide, by decide, by decide, by decide⟩
      List.Forall₂.nil)
    (by decide)
    ⟨"10-K/A2", "5 KB", by decide, by decide, by decide, by decide, by decide, by decide⟩
    (by decide)
    List.Forall₂.nil
